import Mathlib

/-!
Verification of the `dep` dependency-vendoring tool (`src/main.rs`) against its
natural-language specification.  Rust strings are embedded as lists of
characters (`RStr`); the handful of string primitives the program uses
(`contains`, `split`, `starts_with`, `ends_with`, slicing) are defined
structurally below so that every concrete computation reduces inside the
kernel.  Fallible or panicking code paths are embedded as explicit outcome
constructors (`crash` models a Rust panic: `unreachable!()` or `.unwrap()`
on an `Err`).
-/

namespace DepTool

/-- A Rust string, embedded as its list of characters. -/
abbrev RStr := List Char

/-- Conversion from Lean string literals into the embedding. -/
def rs (s : String) : RStr := s.data

/-- Rust `str::starts_with(pat)`: `pat` is a prefix of `s`. -/
def beginsWith : RStr → RStr → Bool
  | [], _ => true
  | _ :: _, [] => false
  | p :: ps, c :: cs => p == c && beginsWith ps cs

/-- Rust `str::ends_with(pat)`: `pat` is a suffix of `s`. -/
def endsWithR (pat s : RStr) : Bool := beginsWith pat.reverse s.reverse

/-- Rust `str::contains(pat)` for a non-empty pattern: `pat` occurs in `s`. -/
def occursIn (pat : RStr) : RStr → Bool
  | [] => beginsWith pat []
  | c :: cs => beginsWith pat (c :: cs) || occursIn pat cs

/-- Worker for `splitOnR`.  Scans left to right; at a position where the
separator matches, the accumulated chunk is emitted and the separator's
characters are skipped.  The fuel argument only bounds the recursion depth;
`s.length + 1` steps always suffice for a non-empty separator. -/
def splitGo (pat : RStr) : Nat → RStr → RStr → List RStr
  | 0, s, cur => [cur.reverse ++ s]
  | _ + 1, [], cur => [cur.reverse]
  | fuel + 1, c :: cs, cur =>
    if beginsWith pat (c :: cs) then
      cur.reverse :: splitGo pat fuel (List.drop pat.length (c :: cs)) []
    else
      splitGo pat fuel cs (c :: cur)

/-- Rust `str::split(pat)` for a non-empty separator, collected into a list. -/
def splitOnR (pat s : RStr) : List RStr := splitGo pat (s.length + 1) s []

/-- Outcome of computing the remote URL for one dependency
(`main.rs` lines 366-385). -/
inductive UrlOutcome where
  | url (u : RStr)
  | crash
  | noUrlError
  deriving DecidableEq

/-- URL derivation from a project git server and a repo shorthand
(`main.rs` lines 367-381).  The source evaluates
`(parts.nth(0), parts.nth(1))` on a single `split("://")` iterator:
the first call consumes element 0, so the second call skips element 1 and
yields element 2 of the original split.  When that element is missing the
source hits `unreachable!()`, embedded here as `crash`. -/
def derive_server_url (server repo : RStr) : UrlOutcome :=
  if !(occursIn (rs ("@")) server) then
    if occursIn (rs ("://")) server then
      let parts := splitOnR (rs ("://")) server
      match parts[0]?, parts[2]? with
      | some protocol, some host =>
        .url (protocol ++ rs ("://git@") ++ host ++ rs (":") ++ repo)
      | _, _ => .crash
    else
      .url (rs ("git@") ++ server ++ rs (":") ++ repo)
  else
    .url (server ++ rs (":") ++ repo)

/-- The full URL match over (project git-server, dependency repo shorthand,
dependency explicit git URL) (`main.rs` lines 366-385).  `noUrlError` models
`Err(git2::Error::from_str("Could not get git url or dependency path"))`. -/
def resolve_url (git_server repo git : Option RStr) : UrlOutcome :=
  match git_server, repo, git with
  | some server, some r, none => derive_server_url server r
  | none, none, some g => .url g
  | some _, none, some g => .url g
  | _, _, _ => .noUrlError

/-- The `[ssh]` section of the global config (`main.rs` lines 108-112).
The Rust field names `private`, `public`, `protected` are Lean keywords and
are suffixed here. -/
structure SshOptions where
  private_key : RStr
  public_key : RStr
  protected_flag : Bool
  deriving DecidableEq

/-- One manifest dependency entry (`main.rs` lines 129-139).  The Rust field
`name` is the serialized `as` field. -/
structure TomlDependency where
  path : Option RStr
  repo : Option RStr
  git : Option RStr
  branch : Option RStr
  tag : Option RStr
  rev : Option RStr
  into : Option RStr
  name : Option RStr
  deriving DecidableEq

/-- A dependency with every field unset, used to build concrete instances. -/
def noneDep : TomlDependency :=
  ⟨none, none, none, none, none, none, none, none⟩

/-- One operation the update command requests from the git backend while
converging a single remote dependency (`main.rs` lines 387-528). -/
inductive BackendOp where
  | cloneBranch (url branch : RStr)
  | cloneDefault (url : RStr)
  | openExisting
  | connectAuth
  | fetchRef (refspec : RStr)
  | downloadRefs (refspecs : List RStr)
  | checkoutLocalBranch (branch : RStr)
  | resolveTag (tag : RStr)
  | checkoutTag (tag : RStr)
  | resolveCommit (rev : RStr)
  | checkoutCommit (rev : RStr)
  | checkoutHead
  deriving DecidableEq

/-- Whether the operation looks up a tag or a revision in the backend. -/
def BackendOp.isTagOrRevLookup : BackendOp → Bool
  | .resolveTag _ => true
  | .checkoutTag _ => true
  | .resolveCommit _ => true
  | .checkoutCommit _ => true
  | _ => false

/-- The sequence of backend operations issued for one remote dependency,
as selected by the `match (&dep.branch, &dep.tag, &dep.rev)` at
`main.rs` lines 395-528, given whether the destination directory already
exists.  In the branch-and-existing case the source fetches and downloads
the refspec `refs/heads/B:refs/heads/B` and then runs the set-head /
checkout-tree / reset block twice (the repetition is in the source,
lines 440-451). -/
def converge_ops (url : RStr) (branch tag rev : Option RStr)
    (dstExists : Bool) : List BackendOp :=
  match branch, tag, rev with
  | some b, none, none =>
    if !dstExists then
      [.cloneBranch url b]
    else
      [.openExisting, .connectAuth,
       .fetchRef (rs ("refs/heads/") ++ b ++ rs (":refs/heads/") ++ b),
       .downloadRefs [rs ("refs/heads/") ++ b ++ rs (":refs/heads/") ++ b],
       .checkoutLocalBranch b, .checkoutLocalBranch b]
  | none, some t, none =>
    (if !dstExists then [.cloneDefault url] else [.openExisting]) ++
    [.downloadRefs [rs ("refs/tags/") ++ t], .resolveTag t, .checkoutTag t]
  | none, none, some r =>
    (if !dstExists then [.cloneDefault url] else [.openExisting]) ++
    [.resolveCommit r, .checkoutCommit r]
  | _, _, _ =>
    if !dstExists then
      [.cloneDefault url]
    else
      [.openExisting, .downloadRefs [], .checkoutHead]

/-- How many of branch/tag/rev are set on a dependency. -/
def numSelectors (branch tag rev : Option RStr) : Nat :=
  (if branch.isSome then 1 else 0) + (if tag.isSome then 1 else 0) +
    (if rev.isSome then 1 else 0)

/-- A filesystem path, embedded as an absolute flag plus its components. -/
structure RPath where
  absolute : Bool
  comps : List RStr
  deriving DecidableEq

/-- One step of the lexical cleaning performed by the `path_clean` crate's
`clean` (invoked via `PathClean::clean` in `absolute_path`,
`main.rs` lines 23-33): empty and `.` components are dropped, `..` pops the
previous real component, a `..` with nothing to pop is dropped on an
absolute path and kept on a relative one.  The accumulator holds the
components built so far, most recent first. -/
def cleanStep (isAbs : Bool) (stack : List RStr) (comp : RStr) : List RStr :=
  if comp = rs ("") ∨ comp = rs (".") then stack
  else if comp = rs ("..") then
    match stack with
    | [] => if isAbs then [] else [rs ("..")]
    | top :: rest => if top = rs ("..") then comp :: top :: rest else rest
  else comp :: stack

/-- Lexical cleaning of a component list (`path_clean::clean`). -/
def cleanParts (isAbs : Bool) (l : List RStr) : List RStr :=
  (l.foldl (cleanStep isAbs) []).reverse

/-- `PathClean::clean` on a path. -/
def clean (p : RPath) : RPath := ⟨p.absolute, cleanParts p.absolute p.comps⟩

/-- Rust `Path::join`: an absolute right operand replaces the base. -/
def joinPath (base q : RPath) : RPath :=
  if q.absolute then q else ⟨base.absolute, base.comps ++ q.comps⟩

/-- `absolute_path` (`main.rs` lines 23-33): an absolute path is cleaned as
is, a relative one is joined onto the current directory first. -/
def absolute_path (cwd : RPath) (p : RPath) : RPath :=
  if p.absolute then clean p else clean (joinPath cwd p)

/-- A component that survives cleaning: not empty, not `.`, not `..`. -/
def plainComp (c : RStr) : Bool :=
  !(c == rs ("")) && !(c == rs (".")) && !(c == rs (".."))

/-- What the destination path holds in the filesystem model. -/
inductive FsNode where
  | symlinkTo (target : RPath)
  | dir
  deriving DecidableEq

/-- The local-path arm of the per-dependency match (`main.rs` lines
358-364): when the destination does not exist, `make_symlink` creates a
symbolic link whose stored target is `absolute_path(src)` (lines 42-44 /
62-64); when the destination exists nothing happens. -/
def local_step (cwd : RPath) (depPath : RPath) (dst : Option FsNode) :
    Option FsNode :=
  match dst with
  | none => some (.symlinkTo (absolute_path cwd depPath))
  | some node => some node

/-- Outcome of `normalize` (`main.rs` lines 75-104).  The Rust function
returns a plain `PathBuf` and has no error channel: a missing environment
variable is hit with `.unwrap()`, which panics.  `crash v` records such a
panic (with the looked-up variable, or the offending component for the
out-of-bounds slice of a lone `%`). -/
inductive ExpandOutcome where
  | ok (parts : List RStr)
  | crash (what : RStr)
  deriving DecidableEq

/-- Classification of one path component by the if-chain at
`main.rs` lines 90-100: a `$VAR` reference, a `%VAR%` reference (a lone `%`
satisfies both the starts-with and ends-with test and the slice `[1..0]`
panics, `percentBad`), a bare `~`, or a plain component. -/
inductive PartClass where
  | dollarRef (var : RStr)
  | percentRef (var : RStr)
  | percentBad
  | homeRef
  | plain (part : RStr)
  deriving DecidableEq

/-- The if-chain of `normalize`, in source order. -/
def classify_part (part : RStr) : PartClass :=
  if beginsWith (rs ("$")) part then .dollarRef (part.drop 1)
  else if beginsWith (rs ("%")) part && endsWithR (rs ("%")) part then
    if part.length < 2 then .percentBad
    else .percentRef ((part.drop 1).dropLast)
  else if part = rs ("~") then .homeRef
  else .plain part

/-- The splitting step of `normalize` (`main.rs` lines 78-85): split on `/`
when the path contains one, on `\` otherwise. -/
def normalize_parts (pathStr : RStr) : List RStr :=
  splitOnR (if occursIn (rs ("/")) pathStr then rs ("/") else rs ("\\")) pathStr

/-- The loop of `normalize` (`main.rs` lines 89-101): each component is
either substituted from the environment or pushed literally; a missing
variable panics.  `env` maps a variable name to its value, `homeVar` is the
platform home variable consulted for `~`. -/
def expand_parts (env : RStr → Option RStr) (homeVar : RStr) :
    List RStr → List RStr → ExpandOutcome
  | [], acc => .ok acc.reverse
  | part :: rest, acc =>
    match classify_part part with
    | .dollarRef var =>
      match env var with
      | some v => expand_parts env homeVar rest (v :: acc)
      | none => .crash var
    | .percentRef var =>
      match env var with
      | some v => expand_parts env homeVar rest (v :: acc)
      | none => .crash var
    | .percentBad => .crash part
    | .homeRef =>
      match env homeVar with
      | some v => expand_parts env homeVar rest (v :: acc)
      | none => .crash homeVar
    | .plain q => expand_parts env homeVar rest (q :: acc)

/-- `normalize` (`main.rs` lines 75-104). -/
def normalize (env : RStr → Option RStr) (homeVar : RStr) (pathStr : RStr) :
    ExpandOutcome :=
  expand_parts env homeVar (normalize_parts pathStr) []

/-- A component that the `normalize` loop pushes literally. -/
def is_special_part (part : RStr) : Bool :=
  match classify_part part with
  | .plain _ => false
  | _ => true

/-- An error aborting the update run: `noUrl` is the returned
`git2::Error` for a dependency with no usable source, `crashed` is the
`unreachable!()` panic inside the URL derivation. -/
inductive DepErr where
  | noUrl
  | crashed
  deriving DecidableEq

/-- The per-dependency test of the passphrase guard (`main.rs` line 332):
`d.git.is_some() || (d.repo.is_some() && man.project.git_server.is_some())`. -/
def needs_auth_check (server : Option RStr) (d : TomlDependency) : Bool :=
  d.git.isSome || (d.repo.isSome && server.isSome)

/-- How many passphrase prompts the update run performs
(`main.rs` lines 329-344): one exactly when some dependency passes
`needs_auth_check`, the global config has an `ssh` section, and that
section is marked protected; zero otherwise. -/
def prompt_count (ssh : Option SshOptions) (server : Option RStr)
    (deps : List (RStr × TomlDependency)) : Nat :=
  if deps.any (fun kd => needs_auth_check server kd.snd) then
    match ssh with
    | some s => if s.protected_flag then 1 else 0
    | none => 0
  else 0

/-- The value held by the `PASSPHRASE` cell during the dependency loop:
the typed secret when the run prompted, the empty-string default of
`get_passphrase` (`main.rs` lines 230-237) otherwise.  The cell is written
only by the prompt (line 337) and never changes afterwards. -/
def cached_passphrase (ssh : Option SshOptions) (server : Option RStr)
    (deps : List (RStr × TomlDependency)) (typed : RStr) : RStr :=
  if prompt_count ssh server deps = 1 then typed else rs ("")

/-- The passphrase value carried, per remote-processed dependency, by the
`credentials` callbacks installed during the loop: each one reads
`get_passphrase()` (`main.rs` line 560), i.e. the cached value.
Local-path dependencies install no callbacks. -/
def cred_requests (cached : RStr) : List (RStr × TomlDependency) → List RStr
  | [] => []
  | (_, d) :: rest =>
    if d.path.isNone then cached :: cred_requests cached rest
    else cred_requests cached rest

/-- Modelled from the claim's words, for comparison with the source's
`needs_auth_check`: a dependency "requires remote authentication" when it
is actually remote (no local path) and carries an explicit URL or a repo
shorthand usable with a project git server. -/
def claim_requires_remote_auth (server : Option RStr)
    (d : TomlDependency) : Bool :=
  d.path.isNone && (d.git.isSome || (d.repo.isSome && server.isSome))

/-- Effect of processing one dependency on the set of immediate entries of
the default lib dir (`main.rs` lines 347-531).  The entry name is the `as`
rename when present, the manifest key otherwise (line 354); a dependency
with an `into` override lives in another directory and touches no default
entry.  Every arm (symlink, branch/tag/rev/default clone) creates the
destination when it is absent and leaves it in place when it exists; no arm
removes any entry.  URL resolution failures abort (lines 382-385). -/
def dep_step (server : Option RStr) (key : RStr) (d : TomlDependency)
    (entries : List RStr) : Except DepErr (List RStr) :=
  let nm := d.name.getD key
  let touch : List RStr :=
    if d.into.isSome then entries
    else if nm ∈ entries then entries else entries ++ [nm]
  match d.path with
  | some _ => .ok touch
  | none =>
    match resolve_url server d.repo d.git with
    | .url _ => .ok touch
    | .crash => .error .crashed
    | .noUrlError => .error .noUrl

/-- The dependency loop (`main.rs` lines 347-531): dependencies are
processed in order and the first error aborts the whole run (the `?` and
`return Err` propagate out of `main`). -/
def run_deps (server : Option RStr) :
    List (RStr × TomlDependency) → List RStr → Except DepErr (List RStr)
  | [], entries => .ok entries
  | (k, d) :: rest, entries =>
    match dep_step server k d entries with
    | .ok entries2 => run_deps server rest entries2
    | .error e => .error e

/-- The update command (`main.rs` lines 308-533) restricted to what it does
to the immediate entries of the default lib dir and to the passphrase
prompt: with `--force` the lib dir is deleted and recreated empty
(lines 322-327), the passphrase is prompted before the loop, then the
dependency loop runs.  Returns the final entry list (or the aborting
error) and the number of prompts. -/
def run_update (force : Bool) (ssh : Option SshOptions) (server : Option RStr)
    (deps : List (RStr × TomlDependency)) (entries : List RStr) :
    Except DepErr (List RStr) × Nat :=
  (run_deps server deps (if force then [] else entries),
   prompt_count ssh server deps)

/-- A dependency whose only set field is a local path. -/
def localDep : TomlDependency := { noneDep with path := some (rs ("p")) }

/-- A dependency whose only set field is an explicit git URL. -/
def remoteDep : TomlDependency := { noneDep with git := some (rs ("git@h:r")) }

/-- A dependency with both a local path and an explicit git URL set. -/
def pathGitDep : TomlDependency :=
  { noneDep with path := some (rs ("local/x")), git := some (rs ("git@h:r")) }

/-- A global ssh section whose key is marked protected. -/
def sshProt : SshOptions := ⟨rs ("id_rsa"), rs ("id_rsa.pub"), true⟩

/-- A concrete environment defining `VAR` and `HOME` only. -/
def envVAR : RStr → Option RStr := fun x =>
  if x = rs ("VAR") then some (rs ("val"))
  else if x = rs ("HOME") then some (rs ("home")) else none

/-- C1 (code bug): for a project git server containing a single scheme
separator, such as `https://example.com` with repo `team/lib`, the URL
derivation does not produce `https://git@example.com:team/lib` as the spec
states; the source's second `parts.nth(1)` call skips past the host and
returns `None`, so the `match` falls into `unreachable!()` and the process
panics.  The third conjunct shows the split itself yields exactly the
protocol/host pair the spec intends to consume. -/
theorem scheme_server_url_panics :
    derive_server_url (rs ("https://example.com")) (rs ("team/lib")) = .crash
  ∧ resolve_url (some (rs ("https://example.com"))) (some (rs ("team/lib"))) none
      = .crash
  ∧ splitOnR (rs ("://")) (rs ("https://example.com"))
      = [rs ("https"), rs ("example.com")] := by
  decide

/-- C7: with a repo shorthand and a project git server, a server containing
`@` resolves to `{server}:{repo}` and a server containing neither `@` nor
`://` resolves to `git@{server}:{repo}`; concretely `example.com` with
`team/lib` gives `git@example.com:team/lib`. -/
theorem server_url_non_scheme (server repo : RStr) :
    (occursIn (rs ("@")) server = true →
       derive_server_url server repo = .url (server ++ rs (":") ++ repo))
  ∧ (occursIn (rs ("@")) server = false →
      occursIn (rs ("://")) server = false →
       derive_server_url server repo
         = .url (rs ("git@") ++ server ++ rs (":") ++ repo))
  ∧ derive_server_url (rs ("example.com")) (rs ("team/lib"))
      = .url (rs ("git@example.com:team/lib")) := by
  refine ⟨?_, ?_, by decide⟩
  · intro h
    simp [derive_server_url, h]
  · intro h1 h2
    simp [derive_server_url, h1, h2]

/-- Witness for `server_url_non_scheme` at concrete servers exercising both
hypotheses. -/
theorem server_url_non_scheme_witness :
    occursIn (rs ("@")) (rs ("git@example.com")) = true
  ∧ derive_server_url (rs ("git@example.com")) (rs ("team/lib"))
      = .url (rs ("git@example.com") ++ rs (":") ++ rs ("team/lib"))
  ∧ occursIn (rs ("@")) (rs ("example.com")) = false
  ∧ occursIn (rs ("://")) (rs ("example.com")) = false
  ∧ derive_server_url (rs ("example.com")) (rs ("team/lib"))
      = .url (rs ("git@") ++ rs ("example.com") ++ rs (":") ++ rs ("team/lib")) :=
  ⟨by decide,
   (server_url_non_scheme (rs ("git@example.com")) (rs ("team/lib"))).1 (by decide),
   by decide, by decide,
   (server_url_non_scheme (rs ("example.com")) (rs ("team/lib"))).2.1
     (by decide) (by decide)⟩

/-- C5 fails as stated: a dependency with an explicit git URL and also a
repo shorthand (here with no project git server) hits the wildcard arm of
the URL match and the run aborts with the no-url error; the explicit URL is
not used verbatim. -/
theorem explicit_url_not_verbatim_cex :
    resolve_url none (some (rs ("team/lib"))) (some (rs ("https://host/x.git")))
      = .noUrlError
  ∧ resolve_url none (some (rs ("team/lib"))) (some (rs ("https://host/x.git")))
      ≠ .url (rs ("https://host/x.git")) := by
  decide

/-- C5 amended: an explicit git URL is used verbatim exactly when no repo
shorthand is set (with or without a project git server); when both the git
field and a repo shorthand are set, resolution fails instead. -/
theorem explicit_url_verbatim (server : Option RStr) (r g : RStr) :
    resolve_url server none (some g) = .url g
  ∧ resolve_url server (some r) (some g) = .noUrlError := by
  cases server <;> simp [resolve_url]

/-- C6: a dependency with no local path, no explicit git URL, and no usable
server-plus-shorthand combination makes URL resolution fail with the no-url
error, and the whole run aborts regardless of the remaining dependencies. -/
theorem missing_source_aborts (server : Option RStr) (k : RStr)
    (d : TomlDependency) (rest : List (RStr × TomlDependency))
    (entries : List RStr)
    (hp : d.path = none) (hg : d.git = none)
    (hu : (server.isSome && d.repo.isSome) = false) :
    resolve_url server d.repo d.git = .noUrlError
  ∧ run_deps server ((k, d) :: rest) entries = .error .noUrl := by
  have hres : resolve_url server d.repo d.git = .noUrlError := by
    rw [hg]
    cases server <;> rcases hr : d.repo with _ | r <;> simp_all [resolve_url]
  refine ⟨hres, ?_⟩
  simp [run_deps, dep_step, hp, hres]

/-- Witness for `missing_source_aborts` at the all-unset dependency. -/
theorem missing_source_aborts_witness :
    noneDep.path = none
  ∧ noneDep.git = none
  ∧ ((none : Option RStr).isSome && noneDep.repo.isSome) = false
  ∧ (resolve_url none noneDep.repo noneDep.git = .noUrlError
     ∧ run_deps none [(rs ("x"), noneDep)] [] = .error .noUrl) :=
  ⟨rfl, rfl, rfl,
   missing_source_aborts none (rs ("x")) noneDep [] [] rfl rfl rfl⟩

/-- C3: a remote dependency with only a branch set yields a branch-targeted
clone when the destination is absent and a fetch of
`refs/heads/B:refs/heads/B` when it exists, with no tag or revision lookup
in either case; with none of branch/tag/rev set and the destination absent,
the remote default branch is cloned. -/
theorem branch_selector_ops (url b : RStr) (ex : Bool) :
    converge_ops url (some b) none none false = [.cloneBranch url b]
  ∧ BackendOp.fetchRef (rs ("refs/heads/") ++ b ++ rs (":refs/heads/") ++ b)
      ∈ converge_ops url (some b) none none true
  ∧ (converge_ops url (some b) none none ex).all
      (fun op => !op.isTagOrRevLookup) = true
  ∧ converge_ops url none none none false = [.cloneDefault url] := by
  refine ⟨rfl, ?_, ?_, rfl⟩
  · simp [converge_ops]
  · cases ex <;> simp [converge_ops, BackendOp.isTagOrRevLookup]

/-- C10: a remote dependency with more than one of branch/tag/rev set is
silently handled by the wildcard arm of the selector match, exactly as if
none were set: clone of the remote default when the destination is absent,
an empty-refspec download plus head checkout when it exists. -/
theorem multiple_selectors_act_as_default (url : RStr)
    (branch tag rev : Option RStr) (ex : Bool)
    (h : 2 ≤ numSelectors branch tag rev) :
    converge_ops url branch tag rev ex = converge_ops url none none none ex
  ∧ converge_ops url none none none false = [.cloneDefault url]
  ∧ converge_ops url none none none true
      = [.openExisting, .downloadRefs [], .checkoutHead] := by
  refine ⟨?_, rfl, rfl⟩
  cases branch <;> cases tag <;> cases rev <;>
    first
      | rfl
      | (exfalso; simp [numSelectors] at h)

/-- Witness for `multiple_selectors_act_as_default` with branch and tag both
set. -/
theorem multiple_selectors_act_as_default_witness :
    2 ≤ numSelectors (some (rs ("b"))) (some (rs ("t"))) none
  ∧ (converge_ops (rs ("u")) (some (rs ("b"))) (some (rs ("t"))) none true
       = converge_ops (rs ("u")) none none none true
     ∧ converge_ops (rs ("u")) none none none false
         = [.cloneDefault (rs ("u"))]
     ∧ converge_ops (rs ("u")) none none none true
         = [.openExisting, .downloadRefs [], .checkoutHead]) :=
  ⟨by decide,
   multiple_selectors_act_as_default (rs ("u")) (some (rs ("b")))
     (some (rs ("t"))) none true (by decide)⟩

/-- Helper: the per-dependency entry update never drops an entry. -/
theorem dep_step_keeps (server : Option RStr) (k : RStr) (d : TomlDependency)
    (entries out : List RStr) (e : RStr)
    (hstep : dep_step server k d entries = .ok out) (he : e ∈ entries) :
    e ∈ out := by
  have htouch : e ∈ (if d.into.isSome then entries
       else if (d.name.getD k) ∈ entries then entries
       else entries ++ [d.name.getD k]) := by
    split_ifs <;> simp [he]
  unfold dep_step at hstep
  rcases hpath : d.path with _ | p
  · rw [hpath] at hstep
    rcases hurl : resolve_url server d.repo d.git with u | _ | _ <;>
      rw [hurl] at hstep <;> simp at hstep
    exact hstep ▸ htouch
  · rw [hpath] at hstep
    simp at hstep
    exact hstep ▸ htouch

/-- Helper: a successful dependency loop never drops an entry. -/
theorem run_deps_keeps (server : Option RStr) :
    ∀ (deps : List (RStr × TomlDependency)) (entries out : List RStr)
      (e : RStr), run_deps server deps entries = .ok out → e ∈ entries →
      e ∈ out := by
  intro deps
  induction deps with
  | nil =>
    intro entries out e h he
    unfold run_deps at h
    injection h with h
    exact h ▸ he
  | cons kd rest ih =>
    intro entries out e h he
    rcases kd with ⟨k, d⟩
    unfold run_deps at h
    split at h
    next entries2 hstep =>
      exact ih entries2 out e h (dep_step_keeps server k d entries entries2 e hstep he)
    next err hstep =>
      exact absurd h (by simp)

/-- C2 fails as stated: the update command contains no pruning pass.  With
vendor entries `a`, `b`, `c` and manifest keys `a`, `c` (both local-path
dependencies), the run succeeds and the orphan entry `b` still exists
afterwards. -/
theorem update_prunes_nothing_cex :
    (run_update false none none
        [(rs ("a"), localDep), (rs ("c"), localDep)]
        [rs ("a"), rs ("b"), rs ("c")]).1
      = .ok [rs ("a"), rs ("b"), rs ("c")]
  ∧ rs ("b") ∈ [rs ("a"), rs ("b"), rs ("c")] :=
  ⟨rfl, by decide⟩

/-- C2 amended: a non-force update never deletes any vendor entry; every
pre-existing entry, manifest-matching or orphaned, is still present after a
successful run (the force flag instead deletes the whole vendor directory
up front). -/
theorem update_keeps_all_entries (force : Bool) (ssh : Option SshOptions)
    (server : Option RStr) (deps : List (RStr × TomlDependency))
    (entries out : List RStr) (e : RStr)
    (hforce : force = false)
    (hrun : (run_update force ssh server deps entries).1 = .ok out)
    (he : e ∈ entries) :
    e ∈ out := by
  subst hforce
  unfold run_update at hrun
  exact run_deps_keeps server deps entries out e (by simpa using hrun) he

/-- Witness for `update_keeps_all_entries` on the pruning scenario of the
spec: the orphan entry `b` survives. -/
theorem update_keeps_all_entries_witness :
    false = false
  ∧ (run_update false none none
        [(rs ("a"), localDep), (rs ("c"), localDep)]
        [rs ("a"), rs ("b"), rs ("c")]).1
      = .ok [rs ("a"), rs ("b"), rs ("c")]
  ∧ rs ("b") ∈ ([rs ("a"), rs ("b"), rs ("c")] : List RStr)
  ∧ rs ("b") ∈ ([rs ("a"), rs ("b"), rs ("c")] : List RStr) :=
  ⟨rfl, rfl, by decide,
   update_keeps_all_entries false none none
     [(rs ("a"), localDep), (rs ("c"), localDep)]
     [rs ("a"), rs ("b"), rs ("c")] [rs ("a"), rs ("b"), rs ("c")]
     (rs ("b")) rfl rfl (by decide)⟩

/-- Helper: on an absolute path, one cleaning step preserves the invariant
that every stacked component is plain. -/
theorem cleanStep_all_plain (s : List RStr) (comp : RStr)
    (h : s.all plainComp = true) :
    (cleanStep true s comp).all plainComp = true := by
  unfold cleanStep
  split_ifs with h1 h2 h3
  · exact h
  · rcases s with _ | ⟨top, rest⟩
    · rfl
    · simp only [List.all_cons, Bool.and_eq_true] at h
      have htop : ¬ top = rs ("..") := by
        intro he
        rw [he] at h
        simp [plainComp, rs] at h
      show (if top = rs ("..") then comp :: top :: rest else rest).all
          plainComp = true
      rw [if_neg htop]
      exact h.2
  · exact absurd rfl h3
  · push_neg at h1
    simp [plainComp, h1.1, h1.2, h2, h]

/-- Helper: on an absolute path, folding the cleaning steps keeps every
stacked component plain. -/
theorem foldl_cleanStep_all_plain (l : List RStr) :
    ∀ s, s.all plainComp = true →
      (l.foldl (cleanStep true) s).all plainComp = true := by
  induction l with
  | nil => intro s h; simpa using h
  | cons c cs ih =>
    intro s h
    exact ih (cleanStep true s c) (cleanStep_all_plain s c h)

/-- Helper: cleaning an absolute path leaves only plain components. -/
theorem cleanParts_abs_plain (l : List RStr) :
    (cleanParts true l).all plainComp = true := by
  unfold cleanParts
  rw [List.all_reverse]
  exact foldl_cleanStep_all_plain l [] rfl

/-- C4: for a local-path dependency, an absent destination becomes a
symbolic link whose stored target is `absolute_path` of the given path,
and an existing destination is left unchanged whatever the manifest path
now says; given an absolute current directory, that link target is
absolute and contains no empty, `.`, or `..` component (it is cleaned). -/
theorem local_dep_converges (cwd p : RPath) (node : FsNode)
    (hcwd : cwd.absolute = true) :
    local_step cwd p none = some (.symlinkTo (absolute_path cwd p))
  ∧ local_step cwd p (some node) = some node
  ∧ (absolute_path cwd p).absolute = true
  ∧ (absolute_path cwd p).comps.all plainComp = true := by
  refine ⟨rfl, rfl, ?_, ?_⟩
  · unfold absolute_path
    by_cases hp : p.absolute = true
    · simp [hp, clean]
    · simp [hp, clean, joinPath, hcwd]
  · unfold absolute_path
    by_cases hp : p.absolute = true
    · simp only [hp, if_true, clean]
      exact hp ▸ cleanParts_abs_plain p.comps
    · have hj : (joinPath cwd p).absolute = true := by
        simp [joinPath, hp, hcwd]
      simp only [hp, if_false, clean, Bool.false_eq_true]
      exact hj ▸ cleanParts_abs_plain (joinPath cwd p).comps

/-- Witness for `local_dep_converges`: an absolute working directory and a
relative manifest path containing `..` and an empty component. -/
theorem local_dep_converges_witness :
    (⟨true, [rs ("w"), rs ("proj")]⟩ : RPath).absolute = true
  ∧ (local_step ⟨true, [rs ("w"), rs ("proj")]⟩
        ⟨false, [rs (".."), rs (""), rs ("lib")]⟩ none
      = some (.symlinkTo (absolute_path ⟨true, [rs ("w"), rs ("proj")]⟩
          ⟨false, [rs (".."), rs (""), rs ("lib")]⟩))
     ∧ local_step ⟨true, [rs ("w"), rs ("proj")]⟩
         ⟨false, [rs (".."), rs (""), rs ("lib")]⟩ (some .dir) = some .dir
     ∧ (absolute_path ⟨true, [rs ("w"), rs ("proj")]⟩
         ⟨false, [rs (".."), rs (""), rs ("lib")]⟩).absolute = true
     ∧ (absolute_path ⟨true, [rs ("w"), rs ("proj")]⟩
         ⟨false, [rs (".."), rs (""), rs ("lib")]⟩).comps.all plainComp
           = true) :=
  ⟨rfl, local_dep_converges ⟨true, [rs ("w"), rs ("proj")]⟩
     ⟨false, [rs (".."), rs (""), rs ("lib")]⟩ .dir rfl⟩

/-- Helper: a non-special classified component is returned as itself. -/
theorem classify_part_plain_self (part : RStr)
    (h : is_special_part part = false) :
    classify_part part = .plain part := by
  unfold is_special_part at h
  rcases hcl : classify_part part with v | v | _ | _ | q
  · rw [hcl] at h; simp at h
  · rw [hcl] at h; simp at h
  · rw [hcl] at h; simp at h
  · rw [hcl] at h; simp at h
  · have hq : q = part := by
      unfold classify_part at hcl
      split_ifs at hcl
      all_goals simp_all
    rw [hq]

/-- Helper: the expansion loop pushes a run of non-special components
through literally. -/
theorem expand_parts_all_plain (env : RStr → Option RStr) (homeVar : RStr) :
    ∀ (l acc : List RStr), l.all (fun c => !(is_special_part c)) = true →
      expand_parts env homeVar l acc = .ok (acc.reverse ++ l) := by
  intro l
  induction l with
  | nil =>
    intro acc h
    simp [expand_parts]
  | cons c cs ih =>
    intro acc h
    simp only [List.all_cons, Bool.and_eq_true, Bool.not_eq_true'] at h
    have hc : classify_part c = .plain c := classify_part_plain_self c h.1
    show (match classify_part c with
      | .dollarRef var =>
        match env var with
        | some v => expand_parts env homeVar cs (v :: acc)
        | none => ExpandOutcome.crash var
      | .percentRef var =>
        match env var with
        | some v => expand_parts env homeVar cs (v :: acc)
        | none => ExpandOutcome.crash var
      | .percentBad => ExpandOutcome.crash c
      | .homeRef =>
        match env homeVar with
        | some v => expand_parts env homeVar cs (v :: acc)
        | none => ExpandOutcome.crash homeVar
      | .plain q => expand_parts env homeVar cs (q :: acc)) = .ok (acc.reverse ++ c :: cs)
    rw [hc]
    show expand_parts env homeVar cs (c :: acc) = .ok (acc.reverse ++ c :: cs)
    rw [ih (c :: acc) (by simpa using h.2)]
    simp

/-- C8 fails as stated: `normalize` has no error channel at all (its Rust
type is `PathBuf`, not a `Result`); a `$VAR` component whose variable is
unset is hit with `.unwrap()`, which panics the process instead of
returning a recoverable environment error. -/
theorem normalize_unset_var_panics_cex :
    normalize (fun _ => (none : Option RStr)) (rs ("HOME")) (rs ("$FOO/x"))
      = .crash (rs ("FOO")) := by
  decide

/-- C8 amended: `normalize` substitutes the environment value for `$VAR`
and `%VAR%` components and the home value for a bare `~`, and passes a path
of non-special components through unchanged; but a referenced variable that
is unset causes a panic (`.unwrap()` on `Err`), not a recoverable error. -/
theorem normalize_expansion (env : RStr → Option RStr) (homeVar v : RStr)
    (l : List RStr) (hl : l.all (fun c => !(is_special_part c)) = true) :
    (env (rs ("VAR")) = some v →
       normalize env homeVar (rs ("$VAR")) = .ok [v])
  ∧ (env (rs ("VAR")) = some v →
       normalize env homeVar (rs ("%VAR%")) = .ok [v])
  ∧ (env homeVar = some v → normalize env homeVar (rs ("~")) = .ok [v])
  ∧ expand_parts env homeVar l [] = .ok l
  ∧ (env (rs ("VAR")) = none →
       normalize env homeVar (rs ("$VAR")) = .crash (rs ("VAR"))) := by
  refine ⟨?_, ?_, ?_, ?_, ?_⟩
  · intro h
    unfold normalize
    rw [show normalize_parts (rs ("$VAR")) = [rs ("$VAR")] from by decide]
    unfold expand_parts
    rw [show classify_part (rs ("$VAR")) = .dollarRef (rs ("VAR")) from by decide]
    show (match env (rs ("VAR")) with
      | some w => expand_parts env homeVar [] [w]
      | none => ExpandOutcome.crash (rs ("VAR"))) = ExpandOutcome.ok [v]
    rw [h]
    rfl
  · intro h
    unfold normalize
    rw [show normalize_parts (rs ("%VAR%")) = [rs ("%VAR%")] from by decide]
    unfold expand_parts
    rw [show classify_part (rs ("%VAR%")) = .percentRef (rs ("VAR")) from by decide]
    show (match env (rs ("VAR")) with
      | some w => expand_parts env homeVar [] [w]
      | none => ExpandOutcome.crash (rs ("VAR"))) = ExpandOutcome.ok [v]
    rw [h]
    rfl
  · intro h
    unfold normalize
    rw [show normalize_parts (rs ("~")) = [rs ("~")] from by decide]
    unfold expand_parts
    rw [show classify_part (rs ("~")) = .homeRef from by decide]
    show (match env homeVar with
      | some w => expand_parts env homeVar [] [w]
      | none => ExpandOutcome.crash homeVar) = ExpandOutcome.ok [v]
    rw [h]
    rfl
  · simpa using expand_parts_all_plain env homeVar l [] hl
  · intro h
    unfold normalize
    rw [show normalize_parts (rs ("$VAR")) = [rs ("$VAR")] from by decide]
    unfold expand_parts
    rw [show classify_part (rs ("$VAR")) = .dollarRef (rs ("VAR")) from by decide]
    show (match env (rs ("VAR")) with
      | some w => expand_parts env homeVar [] [w]
      | none => ExpandOutcome.crash (rs ("VAR"))) = ExpandOutcome.crash (rs ("VAR"))
    rw [h]

/-- Witness for `normalize_expansion` with a concrete environment, also
exercising the unset-variable panic with the empty environment. -/
theorem normalize_expansion_witness :
    ([rs ("lib")].all (fun c => !(is_special_part c)) = true)
  ∧ envVAR (rs ("VAR")) = some (rs ("val"))
  ∧ envVAR (rs ("HOME")) = some (rs ("home"))
  ∧ normalize envVAR (rs ("HOME")) (rs ("$VAR")) = .ok [rs ("val")]
  ∧ normalize envVAR (rs ("HOME")) (rs ("%VAR%")) = .ok [rs ("val")]
  ∧ normalize envVAR (rs ("HOME")) (rs ("~")) = .ok [rs ("home")]
  ∧ expand_parts envVAR (rs ("HOME")) [rs ("lib")] [] = .ok [rs ("lib")]
  ∧ normalize (fun _ => (none : Option RStr)) (rs ("HOME")) (rs ("$VAR"))
      = .crash (rs ("VAR")) :=
  ⟨by decide, by decide, by decide,
   (normalize_expansion envVAR (rs ("HOME")) (rs ("val")) [rs ("lib")]
     (by decide)).1 (by decide),
   (normalize_expansion envVAR (rs ("HOME")) (rs ("val")) [rs ("lib")]
     (by decide)).2.1 (by decide),
   (normalize_expansion envVAR (rs ("HOME")) (rs ("home")) [rs ("lib")]
     (by decide)).2.2.1 (by decide),
   (normalize_expansion envVAR (rs ("HOME")) (rs ("val")) [rs ("lib")]
     (by decide)).2.2.2.1,
   (normalize_expansion (fun _ => (none : Option RStr)) (rs ("HOME"))
     (rs ("v")) [rs ("lib")] (by decide)).2.2.2.2 (by decide)⟩

/-- Helper: every passphrase handed to a credential request is the cached
one, because nothing writes the cell after the prompt. -/
theorem cred_requests_mem (cached : RStr) :
    ∀ (deps : List (RStr × TomlDependency)) (p : RStr),
      p ∈ cred_requests cached deps → p = cached := by
  intro deps
  induction deps with
  | nil =>
    intro p h
    simp [cred_requests] at h
  | cons kd rest ih =>
    intro p h
    rcases kd with ⟨k, d⟩
    unfold cred_requests at h
    by_cases hp : d.path.isNone = true
    · rw [if_pos hp] at h
      rcases List.mem_cons.mp h with h1 | h2
      · exact h1
      · exact ih p h2
    · rw [if_neg hp] at h
      exact ih p h

/-- C9 fails as stated: the prompt guard tests only
`git.is_some() || (repo.is_some() && git_server.is_some())` and ignores the
local path.  A protected key plus a single dependency that has a local path
and a stray `git` field triggers the prompt although no dependency requires
remote authentication (the dependency is handled by the symlink arm and the
backend is never contacted). -/
theorem passphrase_prompt_without_auth_cex :
    prompt_count (some sshProt) none [(rs ("d"), pathGitDep)] = 1
  ∧ ([(rs ("d"), pathGitDep)].all
       (fun kd => !(claim_requires_remote_auth none kd.snd))) = true := by
  decide

/-- C9 amended: the prompt occurs at most once per run, and exactly when
the global config's ssh section is present and protected and some
dependency passes the source's guard (`git` set, or `repo` set alongside a
project git server — regardless of a local path also being set); every
credential request during the loop receives the cached value. -/
theorem passphrase_lifecycle (ssh : Option SshOptions) (server : Option RStr)
    (deps : List (RStr × TomlDependency)) (typed p : RStr)
    (hp : p ∈ cred_requests (cached_passphrase ssh server deps typed) deps) :
    prompt_count ssh server deps ≤ 1
  ∧ (prompt_count ssh server deps = 1 ↔
       (deps.any (fun kd => needs_auth_check server kd.snd)) = true
       ∧ ∃ s, ssh = some s ∧ s.protected_flag = true)
  ∧ p = cached_passphrase ssh server deps typed := by
  refine ⟨?_, ?_, cred_requests_mem _ deps p hp⟩
  · unfold prompt_count
    split_ifs
    · rcases ssh with _ | s
      · exact Nat.zero_le 1
      · by_cases hf : s.protected_flag = true <;> simp [hf]
    · exact Nat.zero_le 1
  · unfold prompt_count
    by_cases ha : (deps.any fun kd => needs_auth_check server kd.snd) = true
    · rw [if_pos ha]
      rcases ssh with _ | s
      · constructor
        · intro h0
          exact absurd h0 (by decide)
        · rintro ⟨-, s2, hs2, -⟩
          cases hs2
      · show (if s.protected_flag = true then 1 else 0) = 1 ↔ _
        by_cases hf : s.protected_flag = true
        · rw [if_pos hf]
          constructor
          · intro _
            exact ⟨ha, s, rfl, hf⟩
          · intro _
            rfl
        · rw [if_neg hf]
          constructor
          · intro h0
            exact absurd h0 (by decide)
          · rintro ⟨-, s2, hs2, hf2⟩
            cases hs2
            exact absurd hf2 hf
    · rw [if_neg ha]
      constructor
      · intro h0
        exact absurd h0 (by decide)
      · rintro ⟨h1, -⟩
        exact absurd h1 ha

/-- Witness for `passphrase_lifecycle`: one protected config and one remote
dependency; the typed passphrase is cached and supplied. -/
theorem passphrase_lifecycle_witness :
    rs ("pw") ∈ cred_requests
        (cached_passphrase (some sshProt) none [(rs ("d"), remoteDep)]
          (rs ("pw")))
        [(rs ("d"), remoteDep)]
  ∧ (prompt_count (some sshProt) none [(rs ("d"), remoteDep)] ≤ 1
     ∧ (prompt_count (some sshProt) none [(rs ("d"), remoteDep)] = 1 ↔
          ([(rs ("d"), remoteDep)].any
            (fun kd => needs_auth_check none kd.snd)) = true
          ∧ ∃ s, (some sshProt : Option SshOptions) = some s
              ∧ s.protected_flag = true)
     ∧ rs ("pw") = cached_passphrase (some sshProt) none
         [(rs ("d"), remoteDep)] (rs ("pw"))) :=
  ⟨by decide,
   passphrase_lifecycle (some sshProt) none [(rs ("d"), remoteDep)]
     (rs ("pw")) (rs ("pw")) (by decide)⟩

end DepTool
